import Mathlib

/-!
Shallow embedding of `data_creation/dataset_creation.py` from the
Energy-Consumption-NavGreen repository, together with theorems checking the
specification's claims about it.

Modelling conventions:
* A pandas `DataFrame` produced by this pipeline always has one integer
  `timestamp` key column plus named value columns; we model it as a list of
  `(timestamp, cells)` rows.  A cell is `Option α`: `none` models a missing
  value (`NaN`).
* Python exceptions are modelled with `Option`/`Except`: `none`/`.error`
  means the corresponding Python code raises before producing a result.
* Numeric cell values are kept abstract (a type parameter) where the code
  never computes with them, and are `ℚ` where the code does arithmetic
  (the float values appearing in the claims are exactly representable).
-/

namespace NavGreen

/-- A table with one integer `timestamp` key column (the first CSV column)
and one named value column per channel.  `cols` lists the value-column names
in order; each row is the timestamp paired with one cell per value column. -/
structure DataFrame (α : Type) where
  cols : List String
  rows : List (Int × List (Option α))
deriving DecidableEq

/-- pandas `merge` suffix rule: a left column whose name also occurs on the
right is renamed with the default left suffix. -/
def suffixLeft (rcols : List String) (c : String) : String :=
  if c ∈ rcols then c ++ "_x" else c

/-- pandas `merge` suffix rule: a right column whose name also occurs on the
left is renamed with the default right suffix. -/
def suffixRight (lcols : List String) (c : String) : String :=
  if c ∈ lcols then c ++ "_y" else c

/-- Row set of `pd.merge(l, r, on='timestamp', how='outer')`, before the key
sort that pandas applies to an outer join: every left row is paired with every
right row carrying the same timestamp (right cells padded with missing values
when there is no match), and right rows whose timestamp never occurs on the
left are appended with the left cells missing.  `lw`/`rw` are the value-column
counts of the two sides. -/
def mergeRows (lw rw : Nat) (lrows rrows : List (Int × List (Option α))) :
    List (Int × List (Option α)) :=
  (lrows.flatMap (fun lp =>
    let ms := rrows.filter (fun rp => rp.1 == lp.1)
    if ms.isEmpty then [(lp.1, lp.2 ++ List.replicate rw (none : Option α))]
    else ms.map (fun rp => (lp.1, lp.2 ++ rp.2))))
  ++ ((rrows.filter (fun rp => lrows.all (fun lp => !(lp.1 == rp.1)))).map
      (fun rp => (rp.1, List.replicate lw (none : Option α) ++ rp.2)))

/-- Ordering of rows by their timestamp key, as used by `sort_values`. -/
def rowLE (a b : Int × List (Option α)) : Prop := a.1 ≤ b.1

instance : @DecidableRel (Int × List (Option α)) (rowLE) :=
  fun a b => inferInstanceAs (Decidable (a.1 ≤ b.1))

instance : IsTotal (Int × List (Option α)) rowLE :=
  ⟨fun a b => Int.le_total a.1 b.1⟩

instance : IsTrans (Int × List (Option α)) rowLE :=
  ⟨fun _ _ _ h1 h2 => le_trans h1 h2⟩

/-- Sort rows ascending by the timestamp key
(`merged_df.sort_values(by='timestamp')`). -/
def sortRows (rows : List (Int × List (Option α))) : List (Int × List (Option α)) :=
  List.insertionSort rowLE rows

/-- `pd.merge(l, r, on='timestamp', how='outer')`: column names with the
suffix rule for collisions, rows as in `mergeRows`, sorted on the key
(pandas sorts the join key for an outer join). -/
def mergeOuter (l r : DataFrame α) : DataFrame α where
  cols := l.cols.map (suffixLeft r.cols) ++ r.cols.map (suffixRight l.cols)
  rows := sortRows (mergeRows l.cols.length r.cols.length l.rows r.rows)

/-- `pd.read_csv(file, header=None, names=['timestamp', column_name])`:
one series file becomes a two-column table whose single value column is named
after the file. -/
def seriesToDF (name : String) (s : List (Int × Option α)) : DataFrame α :=
  ⟨[name], s.map (fun p => (p.1, [p.2]))⟩

/-- `create_dataframe` (lines 23-47): load every series, left-fold pairwise
outer merges starting from the first one, sort by timestamp, and return the
table that is written to `output_file`.  `none` models the uncaught
`IndexError` that `dataframes[0]` raises when the folder holds no CSV file:
the function crashes before writing any output. -/
def create_dataframe (inputs : List (String × List (Int × Option α))) :
    Option (DataFrame α) :=
  match inputs.map (fun i => seriesToDF i.1 i.2) with
  | [] => none
  | d :: ds =>
      let merged := ds.foldl mergeOuter d
      some ⟨merged.cols, sortRows merged.rows⟩

/-! ### Epoch Converter (`clr_datetime_to_unix_time`, lines 50-59) -/

/-- Ticks between the CLR DateTime epoch (0001-01-01) and the Unix epoch
(1970-01-01); 1 tick = 100 nanoseconds. -/
def CLR_UNIX_EPOCH_DIFF_TICKS : Int := 621355968000000000

/-- Ticks per second: the divisor `10000000` in the source. -/
def TICKS_PER_SECOND : Int := 10000000

/-- Smallest whole-second value accepted by `pd.Timestamp(x, unit='s')`:
pandas timestamps are 64-bit nanosecond counts, so the seconds value must
satisfy `x * 10^9 ≥ Timestamp.min.value = -(2^63 - 1)`. -/
def pdTimestampMinSeconds : Int := -9223372036

/-- Largest whole-second value accepted by `pd.Timestamp(x, unit='s')`:
`x * 10^9 ≤ Timestamp.max.value = 2^63 - 1`. -/
def pdTimestampMaxSeconds : Int := 9223372036

/-- `pd.Timestamp(x, unit='s')` for an integer `x`: the calendar instant at
`x` whole seconds past the Unix epoch when `x * 10^9` nanoseconds fits the
64-bit pandas timestamp range, and an `OutOfBoundsDatetime` exception
(`.error`) otherwise. -/
def pdTimestampOfSeconds (x : Int) : Except Unit Int :=
  if pdTimestampMinSeconds ≤ x ∧ x ≤ pdTimestampMaxSeconds then .ok x
  else .error ()

/-- `clr_datetime_to_unix_time` (lines 50-59): a missing input (`NaN`)
returns `NaT` (`ok none`); a present tick count is shifted by the epoch
difference, floor-divided (Python `//`) by the ticks-per-second ratio, and
handed to the `pd.Timestamp` constructor, which may raise
(`OutOfBoundsDatetime`, modelled `.error`). -/
def clr_datetime_to_unix_time (clr_datetime : Option Int) : Except Unit (Option Int) :=
  match clr_datetime with
  | none => .ok none
  | some t =>
      (pdTimestampOfSeconds ((t - CLR_UNIX_EPOCH_DIFF_TICKS).fdiv TICKS_PER_SECOND)).map some

/-! ### Valid-Range Trimmer and `process_dataframe` (lines 62-90) -/

/-- Cell of a row in the value column named `c` (`df[c]` at that row):
missing when the column's cell is `NaN`. -/
def getCell (cols : List String) (row : Int × List (Option α)) (c : String) : Option α :=
  row.2.getD (cols.indexOf c) none

/-- The trimming core of `process_dataframe` on the row list, for a
row-validity predicate `p` (true on rows where the target column is
non-missing).  First slice: when `first_valid_index()` is not `None`
(some row is valid), keep rows from the first valid one (`df.loc[first:]`);
then, when `last_valid_index()` on the result is not `None`, keep rows up to
and including the last valid one (`df.loc[:last]`). -/
def trimEnds (p : Int × List (Option α) → Bool) (l : List (Int × List (Option α))) :
    List (Int × List (Option α)) :=
  let l1 := if l.any p then l.dropWhile (fun x => !p x) else l
  if l1.any p then (l1.reverse.dropWhile (fun x => !p x)).reverse else l1

/-- The Valid-Range Trimmer (lines 70-82 of `process_dataframe`): keep rows
from the first to the last row where `pred_column` is non-missing, leaving
the table untouched when that column has no valid value at all.  The second
component collects the warning/diagnostic messages this code emits while
trimming — the source prints or warns nothing here, so it is always empty. -/
def trimValidRange (pred_column : String) (df : DataFrame α) :
    DataFrame α × List String :=
  (⟨df.cols, trimEnds (fun r => (getCell df.cols r pred_column).isSome) df.rows⟩, [])

/-- Failure modes of `process_dataframe`: the `assert` on the column count
(line 68), and the `OutOfBoundsDatetime` that `clr_datetime_to_unix_time`
can raise while the timestamp column is converted (line 85). -/
inductive PipeError where
  | assertionError
  | outOfBounds
deriving DecidableEq

/-- Timestamp conversion applied to one row (lines 85-88): the raw tick key
becomes the converted instant and the raw `timestamp` column is dropped.  The
tick key of a row is never missing, so the `NaT` branch of the converter is
unreachable here; it is mapped to the same exception constructor. -/
def normalizeRow (r : Int × List (Option α)) : Except PipeError (Int × List (Option α)) :=
  match clr_datetime_to_unix_time (some r.1) with
  | .ok (some s) => .ok (s, r.2)
  | _ => .error .outOfBounds

/-- `process_dataframe` (lines 62-90) on the table read back from the merged
CSV: `numFiles` is the count of `*.csv` files in the folder.  The table's
total column count is `df.cols.length + 1` (the value columns plus the
`timestamp` key column); the `assert` compares it to `numFiles + 1` and a
mismatch aborts (`assertionError`).  Otherwise the table is trimmed to the
target's valid range, its timestamps converted, and the result — with the
(empty) list of emitted warning messages — is what gets written back. -/
def process_dataframe (numFiles : Nat) (pred_column : String) (df : DataFrame α) :
    Except PipeError (DataFrame α × List String) :=
  if df.cols.length + 1 = numFiles + 1 then
    match ((trimValidRange pred_column df).1).rows.mapM normalizeRow with
    | .ok rows2 => .ok (⟨((trimValidRange pred_column df).1).cols, rows2⟩,
        (trimValidRange pred_column df).2)
    | .error e => .error e
  else .error .assertionError

/-! ### Aggregator (module top level, `df.resample(aggregation).agg(['mean', 'std'])`) -/

/-- Bucket boundary of a timestamp for bucket width `w` seconds: pandas
`resample` with the default day-aligned origin assigns a row at time `t` to
the bucket starting at the largest multiple of `w` not exceeding `t`
(the `3min`/`10min` widths used divide one day, so day alignment and epoch
alignment coincide). -/
def bucketOf (w t : Int) : Int := w * (t.fdiv w)

/-- The non-missing values of one channel that fall into the bucket starting
at `b`: pandas `mean`/`std` skip `NaN` cells. -/
def contributions (w : Int) (rows : List (Int × Option ℚ)) (b : Int) : List ℚ :=
  (rows.filter (fun r => bucketOf w r.1 == b)).filterMap (fun r => r.2)

/-- pandas `mean` over the contributing values of a bucket: `NaN` (missing)
when no value contributes, otherwise the arithmetic mean. -/
def aggMean (vs : List ℚ) : Option ℚ :=
  if vs.length = 0 then none else some (vs.sum / (vs.length : ℚ))

/-- pandas sample variance (`ddof=1`) over the contributing values of a
bucket: defined only for two or more values; `std` in the source is the
square root of this quantity and is missing (`NaN`) exactly when this is. -/
def aggVar (vs : List ℚ) : Option ℚ :=
  if 2 ≤ vs.length then
    some ((vs.map (fun x => (x - vs.sum / (vs.length : ℚ)) ^ 2)).sum / ((vs.length : ℚ) - 1))
  else none

/-- One cell pair of the Aggregated Table: the `(mean, std)` entry of one
channel at the bucket starting at `b`, with the std entry represented by the
sample variance it is the square root of (both are missing together). -/
def resampleAggBucket (w : Int) (rows : List (Int × Option ℚ)) (b : Int) :
    Option ℚ × Option ℚ :=
  let vs := contributions w rows b
  (aggMean vs, aggVar vs)

/-! ### `dms_string_to_decimal` (lines 8-20) -/

/-- Value of a nonempty all-digit character list, as Python `float` reads the
integral or fractional digit block of a plain decimal literal. -/
def digitsToNat (cs : List Char) : Option Nat :=
  if cs ≠ [] ∧ cs.all Char.isDigit then
    some (cs.foldl (fun n c => 10 * n + (c.toNat - 48)) 0)
  else none

/-- Python `float(s)` on the plain decimal literals this pipeline feeds it:
a digit block, optionally split by one dot (`"37"`, `"30.5"`), valued as the
exact decimal `n.m` it denotes.  `none` models the `ValueError` Python
raises on anything else. -/
def parseFloat (s : String) : Option ℚ :=
  match s.toList.splitOn '.' with
  | [a] => (digitsToNat a).map (fun n => (n : ℚ))
  | [a, b] =>
      match digitsToNat a, digitsToNat b with
      | some n, some m => some (mkRat (n * 10 ^ b.length + m) (10 ^ b.length))
      | _, _ => none
  | _ => none

/-- `dms_string_to_decimal` (lines 8-20): outer `none` models an uncaught
exception (Python `float` failing, or `s[-1]` on an empty string); `some
none` is the `NaN` returned for a missing input; otherwise degrees are the
first two characters (`s[:2]`), minutes the middle (`s[2:-1]`), and the
result `degrees + minutes/60`, negated when the trailing direction character
is `S` or `W`. -/
def dms_string_to_decimal (dms_string : Option String) : Option (Option ℚ) :=
  match dms_string with
  | none => some none
  | some s =>
      match parseFloat (s.take 2), parseFloat ((s.drop 2).dropRight 1),
            s.toList.getLast? with
      | some degrees, some minutes, some direction =>
          let decimal_degrees := degrees + minutes / 60
          if direction = 'S' ∨ direction = 'W' then some (some (-decimal_degrees))
          else some (some decimal_degrees)
      | _, _, _ => none

/-! ## Theorems about the claims -/

/-- C1 counterexample: the claim predicts a calendar instant for every
present tick count, obtained by truncating division.  At tick count `0` the
converter instead raises `OutOfBoundsDatetime` (the converted seconds value
`-62135596800` is far outside the pandas timestamp range), and at tick count
`CLR_UNIX_EPOCH_DIFF_TICKS - 1` the truncating division of the claim yields
`0` while the code's floor division yields the instant at `-1` seconds. -/
theorem epoch_converter_claim_counterexample :
    clr_datetime_to_unix_time (some 0) = .error () ∧
    ((CLR_UNIX_EPOCH_DIFF_TICKS - 1) - CLR_UNIX_EPOCH_DIFF_TICKS).tdiv TICKS_PER_SECOND = 0 ∧
    clr_datetime_to_unix_time (some (CLR_UNIX_EPOCH_DIFF_TICKS - 1)) = .ok (some (-1)) :=
  ⟨rfl, rfl, rfl⟩

/-- C1 (amended): for every present tick count `t` at or after the CLR/Unix
epoch difference whose converted value stays within the pandas timestamp
range, the converter returns the calendar instant at exactly
`(t - 621355968000000000)` divided by `10^7` whole seconds past the Unix
epoch, the division truncating (floor and truncation agree there); a missing
input yields the missing-value result `NaT`, not an error. -/
theorem epoch_converter_inbounds_truncated (t : Int)
    (h1 : CLR_UNIX_EPOCH_DIFF_TICKS ≤ t)
    (h2 : (t - CLR_UNIX_EPOCH_DIFF_TICKS).fdiv TICKS_PER_SECOND ≤ pdTimestampMaxSeconds) :
    clr_datetime_to_unix_time (some t) =
      .ok (some ((t - CLR_UNIX_EPOCH_DIFF_TICKS).tdiv TICKS_PER_SECOND)) ∧
    clr_datetime_to_unix_time none = .ok none := by
  refine ⟨?_, rfl⟩
  have ha : (0 : Int) ≤ t - CLR_UNIX_EPOCH_DIFF_TICKS := sub_nonneg.mpr h1
  have hb : (0 : Int) ≤ TICKS_PER_SECOND := by decide
  have hfd := Int.fdiv_eq_tdiv ha hb
  have hmin : pdTimestampMinSeconds ≤ (t - CLR_UNIX_EPOCH_DIFF_TICKS).fdiv TICKS_PER_SECOND :=
    le_trans (by decide) (Int.fdiv_nonneg ha hb)
  rw [← hfd]
  simp [clr_datetime_to_unix_time, pdTimestampOfSeconds, hmin, h2, Except.map]

/-- Witness for `epoch_converter_inbounds_truncated` at the tick count of
the Unix epoch itself. -/
theorem epoch_converter_inbounds_truncated_witness :
    CLR_UNIX_EPOCH_DIFF_TICKS ≤ CLR_UNIX_EPOCH_DIFF_TICKS ∧
    (CLR_UNIX_EPOCH_DIFF_TICKS - CLR_UNIX_EPOCH_DIFF_TICKS).fdiv TICKS_PER_SECOND ≤
      pdTimestampMaxSeconds ∧
    (clr_datetime_to_unix_time (some CLR_UNIX_EPOCH_DIFF_TICKS) =
        .ok (some ((CLR_UNIX_EPOCH_DIFF_TICKS - CLR_UNIX_EPOCH_DIFF_TICKS).tdiv
          TICKS_PER_SECOND)) ∧
      clr_datetime_to_unix_time none = .ok none) :=
  ⟨le_refl _, by decide,
    epoch_converter_inbounds_truncated CLR_UNIX_EPOCH_DIFF_TICKS (le_refl _) (by decide)⟩

/-- C5 counterexample: the claim says the converter never fails for any
non-negative tick count, yet at the non-negative input `1` the
`pd.Timestamp` constructor raises `OutOfBoundsDatetime`. -/
theorem epoch_converter_never_fails_counterexample :
    (0 : Int) ≤ 1 ∧ clr_datetime_to_unix_time (some 1) = .error () :=
  ⟨by decide, rfl⟩

/-- C5 (amended): the converter is a pure function (it is a function of its
input alone) and it returns a calendar instant without raising for every
non-negative tick count whose converted whole-second value lies inside the
pandas timestamp range; outside that range the constructor raises. -/
theorem epoch_converter_no_failure_inbounds (t : Int) (_h0 : 0 ≤ t)
    (hmin : pdTimestampMinSeconds ≤ (t - CLR_UNIX_EPOCH_DIFF_TICKS).fdiv TICKS_PER_SECOND)
    (hmax : (t - CLR_UNIX_EPOCH_DIFF_TICKS).fdiv TICKS_PER_SECOND ≤ pdTimestampMaxSeconds) :
    clr_datetime_to_unix_time (some t) =
      .ok (some ((t - CLR_UNIX_EPOCH_DIFF_TICKS).fdiv TICKS_PER_SECOND)) := by
  simp [clr_datetime_to_unix_time, pdTimestampOfSeconds, hmin, hmax, Except.map]

/-- Witness for `epoch_converter_no_failure_inbounds` one second past the
Unix epoch. -/
theorem epoch_converter_no_failure_inbounds_witness :
    (0 : Int) ≤ CLR_UNIX_EPOCH_DIFF_TICKS + TICKS_PER_SECOND ∧
    pdTimestampMinSeconds ≤
      ((CLR_UNIX_EPOCH_DIFF_TICKS + TICKS_PER_SECOND) - CLR_UNIX_EPOCH_DIFF_TICKS).fdiv
        TICKS_PER_SECOND ∧
    ((CLR_UNIX_EPOCH_DIFF_TICKS + TICKS_PER_SECOND) - CLR_UNIX_EPOCH_DIFF_TICKS).fdiv
        TICKS_PER_SECOND ≤ pdTimestampMaxSeconds ∧
    clr_datetime_to_unix_time (some (CLR_UNIX_EPOCH_DIFF_TICKS + TICKS_PER_SECOND)) =
      .ok (some (((CLR_UNIX_EPOCH_DIFF_TICKS + TICKS_PER_SECOND) -
        CLR_UNIX_EPOCH_DIFF_TICKS).fdiv TICKS_PER_SECOND)) :=
  ⟨by decide, by decide, by decide,
    epoch_converter_no_failure_inbounds _ (by decide) (by decide) (by decide)⟩

/-- C9: with zero CSV files in the folder, `create_dataframe` crashes with
an uncaught `IndexError` at `dataframes[0]` (modelled `none`) before any
output table exists to be written. -/
theorem create_dataframe_empty_folder_crashes :
    create_dataframe ([] : List (String × List (Int × Option Int))) = none := rfl

/-- C8 counterexample: fed two series whose channel names collide, the
Timeline Merger does not reject the run — it silently produces a merged
table, with pandas renaming the colliding value columns to `a_x` and
`a_y`. -/
theorem merger_collision_counterexample :
    create_dataframe [("a", [((0 : Int), some (1 : Int))]), ("a", [(1, some 2)])] =
      some ⟨["a_x", "a_y"], [(0, [some 1, none]), (1, [none, some 2])]⟩ := rfl

/-- C8 (amended): the Timeline Merger performs no naming-collision check;
for any two series sharing one channel name the merge succeeds and the
colliding columns are silently disambiguated with the pandas `_x`/`_y`
suffixes instead of the run being rejected. -/
theorem merger_collision_silently_suffixes (α : Type) (n : String)
    (s1 s2 : List (Int × Option α)) :
    ∃ df : DataFrame α, create_dataframe [(n, s1), (n, s2)] = some df ∧
      df.cols = [n ++ "_x", n ++ "_y"] := by
  refine ⟨_, rfl, ?_⟩
  simp [mergeOuter, seriesToDF, suffixLeft, suffixRight]

/-- C3: in every Aggregated Table (any bucket width `w`, any channel series,
any bucket `b`): a bucket with zero contributing non-missing values yields a
missing mean and missing standard deviation, not zero and not an error, and
a bucket with exactly one contributing value yields that value as the mean
and a missing standard deviation (`ddof=1` leaves the variance, and hence
the standard deviation, undefined for a single sample). -/
theorem aggregator_empty_and_single_bucket (w : Int) (rows : List (Int × Option ℚ)) (b : Int) :
    (contributions w rows b = [] → resampleAggBucket w rows b = (none, none)) ∧
    (∀ v : ℚ, contributions w rows b = [v] → resampleAggBucket w rows b = (some v, none)) := by
  constructor
  · intro h
    simp [resampleAggBucket, aggMean, aggVar, h]
  · intro v h
    simp [resampleAggBucket, aggMean, aggVar, h]

/-- Witness for `aggregator_empty_and_single_bucket`: a single value at time
0 is alone in the bucket starting at 0 and absent from the bucket starting
at 180. -/
theorem aggregator_empty_and_single_bucket_witness :
    (contributions 180 [((0 : Int), some (5 : ℚ))] 180 = [] ∧
      resampleAggBucket 180 [((0 : Int), some (5 : ℚ))] 180 = (none, none)) ∧
    (contributions 180 [((0 : Int), some (5 : ℚ))] 0 = [5] ∧
      resampleAggBucket 180 [((0 : Int), some (5 : ℚ))] 0 = (some 5, none)) :=
  ⟨⟨by decide, (aggregator_empty_and_single_bucket 180 _ 180).1 (by decide)⟩,
   ⟨by decide, (aggregator_empty_and_single_bucket 180 _ 0).2 5 (by decide)⟩⟩

/-- C4 counterexample: on a table whose target column has no valid value
anywhere, the Trimmer returns the table unchanged and raises no exception,
but the list of messages it emits is empty — the condition is not surfaced
as a warning signal, contradicting the claim. -/
theorem trimmer_all_missing_counterexample :
    trimValidRange "a" (⟨["a"], [(0, [none]), (1, [(none : Option Int)])]⟩ : DataFrame Int) =
      (⟨["a"], [(0, [none]), (1, [none])]⟩, ([] : List String)) := rfl

/-- C4 (amended): for every table whose target column has zero non-missing
values anywhere, the Valid-Range Trimmer returns the table unchanged (both
`first_valid_index` branches skip the slicing) and raises no exception, but
it emits no warning signal — the condition passes silently. -/
theorem trimmer_all_missing_unchanged_no_warning (α : Type) (c : String) (df : DataFrame α)
    (h : ∀ r ∈ df.rows, (getCell df.cols r c).isNone) :
    trimValidRange c df = (df, []) := by
  have hany : df.rows.any (fun r => (getCell df.cols r c).isSome) = false := by
    rw [List.any_eq_false]
    intro r hr
    have h2 := h r hr
    rw [Option.isNone_iff_eq_none] at h2
    simp [h2]
  simp [trimValidRange, trimEnds, hany]

/-- Witness for `trimmer_all_missing_unchanged_no_warning` on a one-row
table whose only channel is entirely missing. -/
theorem trimmer_all_missing_unchanged_no_warning_witness :
    (∀ r ∈ (⟨["b"], [(5, [none])]⟩ : DataFrame Int).rows, (getCell ["b"] r "b").isNone) ∧
    trimValidRange "b" (⟨["b"], [(5, [(none : Option Int)])]⟩ : DataFrame Int) =
      ((⟨["b"], [(5, [none])]⟩ : DataFrame Int), []) :=
  ⟨by decide, trimmer_all_missing_unchanged_no_warning Int "b" _ (by decide)⟩

/-- Helper: the timestamp-conversion step can only fail with the
out-of-bounds error, never with the assertion error. -/
theorem normalizeRow_error_eq {α : Type} {r : Int × List (Option α)} {e : PipeError}
    (h : normalizeRow r = .error e) : e = .outOfBounds := by
  unfold normalizeRow at h
  rcases hc : clr_datetime_to_unix_time (some r.1) with u | v
  · rw [hc] at h
    injection h with h1
    exact h1.symm
  · rcases v with _ | s
    · rw [hc] at h
      injection h with h1
      exact h1.symm
    · rw [hc] at h
      exact Except.noConfusion h

/-- Helper: converting a whole row list can only fail with the
out-of-bounds error. -/
theorem mapM_normalizeRow_error {α : Type} :
    ∀ (rows : List (Int × List (Option α))) (e : PipeError),
      rows.mapM (normalizeRow (α := α)) = .error e → e = .outOfBounds := by
  intro rows
  induction rows with
  | nil =>
      intro e h
      rw [List.mapM_nil] at h
      exact Except.noConfusion h
  | cons r rs ih =>
      intro e h
      rw [List.mapM_cons] at h
      rcases hr : normalizeRow r with u | x
      · rw [hr] at h
        simp only [Bind.bind, Except.bind] at h
        injection h with h1
        exact h1 ▸ normalizeRow_error_eq hr
      · rw [hr] at h
        simp only [Bind.bind, Except.bind] at h
        rcases hm : rs.mapM (normalizeRow (α := α)) with u2 | xs
        · rw [hm] at h
          injection h with h1
          exact h1 ▸ ih u2 hm
        · rw [hm] at h
          simp only [pure, Except.pure] at h
          exact Except.noConfusion h

/-- C6: `process_dataframe` fails with the assertion-class error, aborting
the run, exactly when the table's total column count (its value columns plus
the timestamp column, `df.cols.length + 1`) differs from the number of input
channel files plus one; when the counts match the assertion passes and this
failure cannot be the result. -/
theorem trimmer_assertion_iff_column_count (α : Type) (numFiles : Nat) (c : String)
    (df : DataFrame α) :
    process_dataframe numFiles c df = .error .assertionError ↔
      df.cols.length + 1 ≠ numFiles + 1 := by
  unfold process_dataframe
  by_cases hcnt : df.cols.length + 1 = numFiles + 1
  · rw [if_pos hcnt]
    constructor
    · intro h
      exfalso
      rcases hm : ((trimValidRange c df).1.rows.mapM (normalizeRow (α := α))) with u | rows2
      · rw [hm] at h
        injection h with h1
        have h2 := mapM_normalizeRow_error _ u hm
        rw [h2] at h1
        exact PipeError.noConfusion h1
      · rw [hm] at h
        exact Except.noConfusion h
    · intro hne
      exact absurd hcnt hne
  · rw [if_neg hcnt]
    simp [hcnt]

/-- C10: `dms_string_to_decimal` propagates a missing input to a missing
output (`NaN` in, `NaN` out, no exception), and on every well-formed
degrees-minutes string — the first two characters parse as the degrees, the
middle as the minutes, and there is a trailing direction character — it
returns degrees plus minutes divided by 60, negated exactly when that
trailing character is `S` or `W`. -/
theorem dms_missing_propagates_and_wellformed_value (s : String) (d m : ℚ) (dir : Char)
    (hd : parseFloat (s.take 2) = some d)
    (hm : parseFloat ((s.drop 2).dropRight 1) = some m)
    (hdir : s.toList.getLast? = some dir) :
    dms_string_to_decimal none = some none ∧
    dms_string_to_decimal (some s) =
      some (some (if dir = 'S' ∨ dir = 'W' then -(d + m / 60) else d + m / 60)) := by
  refine ⟨rfl, ?_⟩
  simp only [dms_string_to_decimal, hd, hm, hdir]
  split_ifs with h <;> rfl

/-- Witness for `dms_missing_propagates_and_wellformed_value` on the string
`"3730.5N"`: 37 degrees, 30.5 minutes, direction north. -/
theorem dms_missing_propagates_and_wellformed_value_witness :
    parseFloat (("3730.5N" : String).take 2) = some 37 ∧
    parseFloat ((("3730.5N" : String).drop 2).dropRight 1) = some (mkRat 61 2) ∧
    ("3730.5N" : String).toList.getLast? = some 'N' ∧
    (dms_string_to_decimal none = some none ∧
      dms_string_to_decimal (some "3730.5N") =
        some (some (if 'N' = 'S' ∨ 'N' = 'W' then -((37 : ℚ) + mkRat 61 2 / 60)
          else (37 : ℚ) + mkRat 61 2 / 60))) :=
  ⟨by decide, by decide, by decide,
    dms_missing_propagates_and_wellformed_value "3730.5N" 37 (mkRat 61 2) 'N'
      (by decide) (by decide) (by decide)⟩

/-! ### Idempotence of the Valid-Range Trimmer (C7) -/

/-- Dropping a prefix by a predicate twice is the same as dropping it
once. -/
theorem dropWhile_dropWhile (q : β → Bool) :
    ∀ l : List β, (l.dropWhile q).dropWhile q = l.dropWhile q := by
  intro l
  induction l with
  | nil => rfl
  | cons h t ih =>
      by_cases hq : q h
      · simp [List.dropWhile_cons, hq, ih]
      · simp [List.dropWhile_cons, hq]

/-- Dropping the invalid prefix preserves the existence of a valid row. -/
theorem any_dropWhile_not (p : β → Bool) :
    ∀ l : List β, l.any p = true → (l.dropWhile (fun x => !p x)).any p = true := by
  intro l
  induction l with
  | nil => simp
  | cons h t ih =>
      intro ha
      by_cases hp : p h
      · simp [List.dropWhile_cons, hp]
      · simp only [List.any_cons, hp, Bool.false_or] at ha
        simp [List.dropWhile_cons, hp, ih ha]

/-- When some row is valid, dropping the invalid prefix exposes a valid
head. -/
theorem dropWhile_not_head (p : β → Bool) :
    ∀ l : List β, l.any p = true →
      ∃ x xs, l.dropWhile (fun y => !p y) = x :: xs ∧ p x = true := by
  intro l
  induction l with
  | nil => simp
  | cons h t ih =>
      intro ha
      by_cases hp : p h
      · exact ⟨h, t, by simp [List.dropWhile_cons, hp], hp⟩
      · simp only [List.any_cons, hp, Bool.false_or] at ha
        obtain ⟨x, xs, hx, hpx⟩ := ih ha
        exact ⟨x, xs, by simp [List.dropWhile_cons, hp, hx], hpx⟩

/-- If dropping a prefix empties the list, every element satisfied the
predicate. -/
theorem all_of_dropWhile_eq_nil (q : β → Bool) :
    ∀ l : List β, l.dropWhile q = [] → ∀ x ∈ l, q x = true := by
  intro l
  induction l with
  | nil => simp
  | cons h t ih =>
      intro hnil x hx
      by_cases hq : q h
      · rw [List.dropWhile_cons, if_pos hq] at hnil
        rcases List.mem_cons.mp hx with rfl | hxt
        · exact hq
        · exact ih hnil x hxt
      · rw [List.dropWhile_cons, if_neg hq] at hnil
        exact List.noConfusion hnil

/-- Dropping a prefix does not change the last element when something
remains. -/
theorem getLast?_dropWhile (q : β → Bool) :
    ∀ l : List β, l.dropWhile q ≠ [] → (l.dropWhile q).getLast? = l.getLast? := by
  intro l
  induction l with
  | nil => intro hne; exact absurd rfl hne
  | cons h t ih =>
      intro hne
      by_cases hq : q h
      · rw [List.dropWhile_cons, if_pos hq] at hne ⊢
        rcases ht : t with _ | ⟨a, t2⟩
        · rw [ht] at hne
          exact absurd rfl hne
        · rw [← ht, ih hne, ht, List.getLast?_cons_cons]
      · rw [List.dropWhile_cons, if_neg hq]

/-- Trimming the invalid suffix of a list with a valid row leaves a
nonempty list. -/
theorem trimBack_ne_nil (p : β → Bool) (l : List β) (hl : l.any p = true) :
    (l.reverse.dropWhile (fun y => !p y)).reverse ≠ [] := by
  intro hnil
  rw [List.reverse_eq_nil_iff] at hnil
  obtain ⟨x, hx, hpx⟩ := List.any_eq_true.mp hl
  have := all_of_dropWhile_eq_nil _ _ hnil x (List.mem_reverse.mpr hx)
  rw [hpx] at this
  exact Bool.noConfusion this

/-- Trimming the invalid suffix of a list whose head is valid keeps that
head (or empties the list). -/
theorem trimBack_head (p : β → Bool) (x : β) (xs : List β) :
    ((x :: xs).reverse.dropWhile (fun y => !p y)).reverse = [] ∨
      ∃ ys, ((x :: xs).reverse.dropWhile (fun y => !p y)).reverse = x :: ys := by
  rcases hz : ((x :: xs).reverse.dropWhile (fun y => !p y)).reverse with _ | ⟨a, as⟩
  · exact Or.inl rfl
  · right
    have hne : (x :: xs).reverse.dropWhile (fun y => !p y) ≠ [] := by
      intro h0
      rw [h0] at hz
      exact List.noConfusion hz
    have hlast : ((x :: xs).reverse.dropWhile (fun y => !p y)).getLast? =
        ((x :: xs).reverse).getLast? := getLast?_dropWhile _ _ hne
    rw [List.getLast?_reverse] at hlast
    have hhead : (((x :: xs).reverse.dropWhile (fun y => !p y)).reverse).head? =
        ((x :: xs).reverse.dropWhile (fun y => !p y)).getLast? := List.head?_reverse _
    rw [hz] at hhead
    rw [hlast] at hhead
    simp only [List.head?_cons] at hhead
    injection hhead with h1
    subst h1
    exact ⟨as, rfl⟩

/-- The row-list trim of the Valid-Range Trimmer is idempotent. -/
theorem trimEnds_idem (p : Int × List (Option α) → Bool)
    (l : List (Int × List (Option α))) : trimEnds p (trimEnds p l) = trimEnds p l := by
  rcases hl : l.any p with _ | _
  · have h1 : trimEnds p l = l := by simp [trimEnds, hl]
    rw [h1]
    exact h1
  · obtain ⟨x, xs, hX, hpx⟩ := dropWhile_not_head p l hl
    have hXany : (l.dropWhile (fun y => !p y)).any p = true := any_dropWhile_not p l hl
    have hTl : trimEnds p l =
        ((l.dropWhile (fun y => !p y)).reverse.dropWhile (fun y => !p y)).reverse := by
      simp [trimEnds, hl, hXany]
    have hRne : ((l.dropWhile (fun y => !p y)).reverse.dropWhile
        (fun y => !p y)).reverse ≠ [] := trimBack_ne_nil p _ hXany
    have hRhead : ∃ ys, ((l.dropWhile (fun y => !p y)).reverse.dropWhile
        (fun y => !p y)).reverse = x :: ys := by
      rcases hX ▸ trimBack_head p x xs with h0 | h0
      · exact absurd h0 hRne
      · exact h0
    obtain ⟨ys, hR⟩ := hRhead
    have hRany : (((l.dropWhile (fun y => !p y)).reverse.dropWhile
        (fun y => !p y)).reverse).any p = true := by
      rw [hR]
      simp [hpx]
    have hRdrop : (((l.dropWhile (fun y => !p y)).reverse.dropWhile
        (fun y => !p y)).reverse).dropWhile (fun y => !p y) =
        ((l.dropWhile (fun y => !p y)).reverse.dropWhile (fun y => !p y)).reverse := by
      rw [hR, List.dropWhile_cons]
      simp [hpx]
    have hRrev : ((((l.dropWhile (fun y => !p y)).reverse.dropWhile
        (fun y => !p y)).reverse).reverse).dropWhile (fun y => !p y) =
        (((l.dropWhile (fun y => !p y)).reverse.dropWhile
          (fun y => !p y)).reverse).reverse := by
      rw [List.reverse_reverse]
      exact dropWhile_dropWhile _ _
    rw [hTl]
    simp only [trimEnds, hRany, if_pos, hRdrop, hRany, hRrev, List.reverse_reverse]
    exact congrArg List.reverse (dropWhile_dropWhile _ _)

/-- C7: trimming is idempotent — applying the Valid-Range Trimmer to the
output of the Trimmer with the same target column yields an identical
table (and again no messages). -/
theorem trimmer_idempotent (α : Type) (c : String) (df : DataFrame α) :
    trimValidRange c (trimValidRange c df).1 = trimValidRange c df := by
  simp only [trimValidRange]
  rw [trimEnds_idem]

/-! ### Timestamp preservation and ordering of the Timeline Merger (C2) -/

/-- Sorting the rows permutes them, so timestamp membership is
preserved. -/
theorem mem_map_fst_sortRows (rows : List (Int × List (Option α))) (t : Int) :
    t ∈ (sortRows rows).map Prod.fst ↔ t ∈ rows.map Prod.fst :=
  ((List.perm_insertionSort rowLE rows).map Prod.fst).mem_iff

/-- The timestamps of an outer-join row set are exactly the timestamps of
the two sides: no row lost, none invented. -/
theorem mem_map_fst_mergeRows (lw rw : Nat) (lrows rrows : List (Int × List (Option α)))
    (t : Int) :
    t ∈ (mergeRows lw rw lrows rrows).map Prod.fst ↔
      t ∈ lrows.map Prod.fst ∨ t ∈ rrows.map Prod.fst := by
  constructor
  · intro ht
    rcases List.mem_map.mp ht with ⟨row, hrow, hfst⟩
    rcases List.mem_append.mp hrow with hL | hR
    · rcases List.mem_flatMap.mp hL with ⟨lp, hlp, hin⟩
      left
      have hkey : row.1 = lp.1 := by
        by_cases hms : (rrows.filter (fun rp => rp.1 == lp.1)).isEmpty
        · rw [if_pos hms] at hin
          rcases List.mem_singleton.mp hin with rfl
          rfl
        · rw [if_neg hms] at hin
          rcases List.mem_map.mp hin with ⟨rp, _, heq⟩
          rw [← heq]
      exact List.mem_map.mpr ⟨lp, hlp, by rw [← hfst, hkey]⟩
    · rcases List.mem_map.mp hR with ⟨rp, hrp, heq⟩
      right
      have hrp2 := (List.mem_filter.mp hrp).1
      exact List.mem_map.mpr ⟨rp, hrp2, by rw [← hfst, ← heq]⟩
  · intro ht
    rcases ht with hL | hR
    · rcases List.mem_map.mp hL with ⟨lp, hlp, hfst⟩
      by_cases hms : (rrows.filter (fun rp => rp.1 == lp.1)).isEmpty
      · refine List.mem_map.mpr ⟨(lp.1, lp.2 ++ List.replicate rw none), ?_, hfst⟩
        exact List.mem_append.mpr (Or.inl (List.mem_flatMap.mpr
          ⟨lp, hlp, by rw [if_pos hms]; exact List.mem_singleton.mpr rfl⟩))
      · obtain ⟨rp, hrp⟩ := List.exists_mem_of_ne_nil
          (rrows.filter (fun rp => rp.1 == lp.1)) (fun h0 => hms (by rw [h0]; rfl))
        refine List.mem_map.mpr ⟨(lp.1, lp.2 ++ rp.2), ?_, hfst⟩
        exact List.mem_append.mpr (Or.inl (List.mem_flatMap.mpr
          ⟨lp, hlp, by rw [if_neg hms]; exact List.mem_map.mpr ⟨rp, hrp, rfl⟩⟩))
    · rcases List.mem_map.mp hR with ⟨rp, hrp, hfst⟩
      by_cases hmatch : ∃ lp ∈ lrows, lp.1 = rp.1
      · obtain ⟨lp, hlp, hkey⟩ := hmatch
        have hms : ¬ (rrows.filter (fun rp2 => rp2.1 == lp.1)).isEmpty := by
          intro h0
          rw [List.isEmpty_iff] at h0
          have : rp ∈ rrows.filter (fun rp2 => rp2.1 == lp.1) :=
            List.mem_filter.mpr ⟨hrp, by simp [hkey]⟩
          rw [h0] at this
          exact List.not_mem_nil rp this
        obtain ⟨rp2, hrp2⟩ := List.exists_mem_of_ne_nil
          (rrows.filter (fun rp2 => rp2.1 == lp.1)) (fun h0 => hms (by rw [h0]; rfl))
        refine List.mem_map.mpr ⟨(lp.1, lp.2 ++ rp2.2), ?_, by rw [hkey, hfst]⟩
        exact List.mem_append.mpr (Or.inl (List.mem_flatMap.mpr
          ⟨lp, hlp, by rw [if_neg hms]; exact List.mem_map.mpr ⟨rp2, hrp2, rfl⟩⟩))
      · refine List.mem_map.mpr ⟨(rp.1, List.replicate lw none ++ rp.2), ?_, hfst⟩
        refine List.mem_append.mpr (Or.inr (List.mem_map.mpr ⟨rp, ?_, rfl⟩))
        refine List.mem_filter.mpr ⟨hrp, ?_⟩
        rw [List.all_eq_true]
        intro lp hlp
        simp only [Bool.not_eq_true']
        rw [beq_eq_false_iff_ne]
        intro heq
        exact hmatch ⟨lp, hlp, heq⟩

/-- Timestamp membership through one pairwise outer merge. -/
theorem mem_map_fst_mergeOuter (l r : DataFrame α) (t : Int) :
    t ∈ (mergeOuter l r).rows.map Prod.fst ↔
      t ∈ l.rows.map Prod.fst ∨ t ∈ r.rows.map Prod.fst := by
  show t ∈ (sortRows _).map Prod.fst ↔ _
  rw [mem_map_fst_sortRows, mem_map_fst_mergeRows]

/-- Timestamp membership through the left fold of pairwise outer merges. -/
theorem mem_map_fst_foldl (ds : List (DataFrame α)) :
    ∀ (d : DataFrame α) (t : Int),
      t ∈ (ds.foldl mergeOuter d).rows.map Prod.fst ↔
        t ∈ d.rows.map Prod.fst ∨ ∃ e ∈ ds, t ∈ e.rows.map Prod.fst := by
  induction ds with
  | nil => simp
  | cons e es ih =>
      intro d t
      rw [List.foldl_cons, ih (mergeOuter d e) t, mem_map_fst_mergeOuter]
      simp only [List.mem_cons]
      constructor
      · rintro ((h | h) | ⟨f, hf, h⟩)
        · exact Or.inl h
        · exact Or.inr ⟨e, Or.inl rfl, h⟩
        · exact Or.inr ⟨f, Or.inr hf, h⟩
      · rintro (h | ⟨f, (rfl | hf), h⟩)
        · exact Or.inl (Or.inl h)
        · exact Or.inl (Or.inr h)
        · exact Or.inr ⟨f, hf, h⟩

/-- Loading a series keeps its timestamps. -/
theorem map_fst_seriesToDF (name : String) (s : List (Int × Option α)) :
    ((seriesToDF name s).rows).map Prod.fst = s.map Prod.fst := by
  simp [seriesToDF]

/-- Membership form of `map_fst_seriesToDF`. -/
theorem mem_map_fst_seriesToDF (name : String) (s : List (Int × Option α)) (t : Int) :
    t ∈ ((seriesToDF name s).rows).map Prod.fst ↔ t ∈ s.map Prod.fst := by
  rw [map_fst_seriesToDF]

/-- Membership in the right-folded union of the input timestamp sets. -/
theorem mem_foldr_union (inputs : List (String × List (Int × Option α))) (t : Int) :
    t ∈ inputs.foldr (fun i acc => (i.2.map Prod.fst).toFinset ∪ acc) ∅ ↔
      ∃ i ∈ inputs, t ∈ i.2.map Prod.fst := by
  induction inputs with
  | nil => simp
  | cons i is ih => simp [ih]

/-- The sorted rows are sorted ascending on the timestamp key. -/
theorem sorted_map_fst_sortRows (rows : List (Int × List (Option α))) :
    List.Sorted (· ≤ ·) ((sortRows rows).map Prod.fst) :=
  List.Pairwise.map Prod.fst (fun _ _ hab => hab)
    (List.sorted_insertionSort rowLE rows)

/-- C2: for every nonempty family of channel series, the Merged Table that
`create_dataframe` produces has exactly the union of the input timestamp
sets as its timestamp set — no row dropped (in particular none dropped for
missing values), no row invented — and its rows are sorted ascending by
timestamp. -/
theorem merged_timestamps_union_sorted (α : Type) [DecidableEq α]
    (inputs : List (String × List (Int × Option α))) (df : DataFrame α)
    (h : create_dataframe inputs = some df) :
    (df.rows.map Prod.fst).toFinset =
      inputs.foldr (fun i acc => (i.2.map Prod.fst).toFinset ∪ acc) ∅ ∧
    List.Sorted (· ≤ ·) (df.rows.map Prod.fst) := by
  rcases inputs with _ | ⟨i0, rest⟩
  · exact Option.noConfusion h
  · rw [create_dataframe] at h
    simp only [List.map_cons] at h
    injection h with h1
    constructor
    · ext t
      rw [List.mem_toFinset, mem_foldr_union, ← h1]
      show t ∈ (sortRows _).map Prod.fst ↔ _
      rw [mem_map_fst_sortRows, mem_map_fst_foldl]
      constructor
      · rintro (h | ⟨e, he, ht⟩)
        · exact ⟨i0, List.mem_cons_self i0 rest, (mem_map_fst_seriesToDF _ _ _).mp h⟩
        · rcases List.mem_map.mp he with ⟨i, hi, rfl⟩
          exact ⟨i, List.mem_cons_of_mem i0 hi, (mem_map_fst_seriesToDF _ _ _).mp ht⟩
      · rintro ⟨i, hi, ht⟩
        rcases List.mem_cons.mp hi with rfl | hi2
        · exact Or.inl ((mem_map_fst_seriesToDF _ _ _).mpr ht)
        · exact Or.inr ⟨seriesToDF i.1 i.2, List.mem_map.mpr ⟨i, hi2, rfl⟩,
            (mem_map_fst_seriesToDF _ _ _).mpr ht⟩
    · rw [← h1]
      exact sorted_map_fst_sortRows _

/-- Witness for `merged_timestamps_union_sorted` on two channels with
overlapping, unsorted timestamps and a missing value. -/
theorem merged_timestamps_union_sorted_witness :
    create_dataframe [("a", [((10 : Int), some (1 : Int)), (0, some 2)]), ("b", [(5, none)])] =
      some ⟨["a", "b"], [(0, [some 2, none]), (5, [none, none]), (10, [some 1, none])]⟩ ∧
    (((⟨["a", "b"], [(0, [some 2, none]), (5, [none, none]), (10, [some 1, none])]⟩ :
        DataFrame Int).rows.map Prod.fst).toFinset =
      ([("a", [((10 : Int), some (1 : Int)), (0, some 2)]),
        ("b", [(5, none)])].foldr (fun i acc => (i.2.map Prod.fst).toFinset ∪ acc) ∅) ∧
      List.Sorted (· ≤ ·) ((⟨["a", "b"],
        [(0, [some 2, none]), (5, [none, none]), (10, [some 1, none])]⟩ :
          DataFrame Int).rows.map Prod.fst)) :=
  ⟨rfl, merged_timestamps_union_sorted Int _ _ rfl⟩

end NavGreen
